import Mathlib

/-!
Appointment-booking backend: `src/server.js` and `src/api/server.js`

A shallow embedding of the two Express servers of the repository and the
properties of their request handlers.

Modelling conventions.

* The two Mongo collections are lists of records in insertion order; `save`
  appends at the end, `findOne` is `List.find?`, `find` is `List.filter`.
* A value taken from the body of a register or booking request, or from the
  query string, is a string or is absent (`Option String`, `none` for
  `undefined`).  `!x` on such a value is true exactly when it is absent or the
  empty string.
* A query condition `{ f: x }` holds of a stored document when the stored
  string equals `x`; an absent `x` equals no stored string.
* The login handlers hand the values of the JSON body to `User.findOne` as they
  come, and an object whose key is a comparison operator is read by the query
  engine as that comparison, not as a value to equal.  A value of a login body
  is therefore a `Value`: absent, a string, or such an operator object with a
  string operand.  Other JSON shapes are not part of the model.
* Requests are handled one after the other and the storage never fails, so the
  `catch` branches are reached only through schema validation in `save`.
* The `createdAt` timestamp is read by no handler and is left out.
* `.sort({ date: 1, slot: 1 })` orders by `date` and then `slot`, each compared
  as strings code point by code point; documents with equal keys keep their
  stored order.
-/

namespace Pro1

/-! ## Data model -/

/-- Documents of the `User` model (`userSchema`). -/
structure User where
  username : String
  password : String
  role : String
deriving DecidableEq, Repr

/-- Documents of the `Appointment` model (`appointmentSchema` of `src/server.js`). -/
structure Appointment where
  patientName : String
  doctor : String
  date : String
  slot : String
  username : String
deriving DecidableEq, Repr

/-- An appointment document as a query hands it back: a path left out by
`.select(...)` reads as `undefined`. -/
structure AppointmentDoc where
  patientName : Option String
  doctor : Option String
  date : Option String
  slot : Option String
deriving DecidableEq, Repr

/-- One object of the array sent by `GET /api/appointments`; a field that is
`none` is `undefined` and so is missing from the JSON text. -/
structure Entry where
  patient : Option String
  doctor : Option String
  date : Option String
  slot : Option String
deriving DecidableEq, Repr

/-- What `res.json` sends: a `{ message }` object or an array of entries. -/
inductive Body where
  | message (text : String)
  | entries (list : List Entry)
deriving DecidableEq, Repr

/-- Status code and body of a response. -/
structure Response where
  status : Nat
  body : Body
deriving DecidableEq, Repr

/-- The two collections. -/
structure Db where
  users : List User
  appointments : List Appointment
deriving DecidableEq, Repr

/-- Body of `POST /api/register`. -/
structure RegisterBody where
  username : Option String
  password : Option String
deriving DecidableEq, Repr

/-- Comparison operators of the query language: the key `$eq`, `$ne`, `$gt`,
`$gte`, `$lt` or `$lte` of an object met where a value is expected. -/
inductive Operator where
  | eq
  | ne
  | gt
  | gte
  | lt
  | lte
deriving DecidableEq, Repr

/-- A value of the JSON body of `POST /api/login`: absent, a string, or an
object with one comparison operator as its key and a string as operand, such as
`{ "$ne": "" }`. -/
inductive Value where
  | undefined
  | string (s : String)
  | operator (op : Operator) (operand : String)
deriving DecidableEq, Repr

/-- Body of `POST /api/login`. -/
structure LoginBody where
  username : Value
  password : Value
  role : Value
deriving DecidableEq, Repr

/-- Body of `POST /api/appointments`. -/
structure AppointmentBody where
  patient : Option String
  doctor : Option String
  date : Option String
  slot : Option String
  username : Option String
deriving DecidableEq, Repr

/-- Query string of `GET /api/appointments`. -/
structure AppointmentQuery where
  username : Option String
deriving DecidableEq, Repr

/-! ## JavaScript and Mongoose primitives used by the handlers -/

/-- Truthiness of a string-or-undefined value: `!x` is `!(truthy x)`. -/
def truthy : Option String → Bool
  | none => false
  | some s => decide (s ≠ "")

/-- The query condition `{ f: x }` against the stored string `v`. -/
def eqField (x : Option String) (v : String) : Bool :=
  decide (x = some v)

/-- The query condition `{ f: x }` against the stored string `v` for a value `x`
of a login body: a string has to equal `v`, an absent value equals no stored
string, and an operator object compares `v` with its operand, strings being
ordered as the sequences of their characters. -/
def queryField (x : Value) (v : String) : Bool :=
  match x with
  | .undefined => false
  | .string s => decide (s = v)
  | .operator .eq s => decide (v = s)
  | .operator .ne s => decide (v ≠ s)
  | .operator .gt s => decide (s.toList < v.toList)
  | .operator .gte s => decide (s.toList ≤ v.toList)
  | .operator .lt s => decide (v.toList < s.toList)
  | .operator .lte s => decide (v.toList ≤ s.toList)

/-- The check `required: true` of a `String` path: present and not empty. -/
def required (x : Option String) : Option String :=
  match x with
  | some s => if s = "" then none else some s
  | none => none

/-- Validation done by `new User({...}).save()`: every path is required. -/
def User.validate (username password role : Option String) : Option User :=
  match required username, required password, required role with
  | some u, some p, some r => some { username := u, password := p, role := r }
  | _, _, _ => none

/-- Validation done by `new Appointment({...}).save()` in `src/server.js`:
every path is required. -/
def Appointment.validate (patientName doctor date slot username : Option String) :
    Option Appointment :=
  match required patientName, required doctor, required date, required slot,
      required username with
  | some p, some d, some t, some s, some u =>
      some { patientName := p, doctor := d, date := t, slot := s, username := u }
  | _, _, _, _, _ => none

/-- The projection `.select(paths)`. -/
def select (paths : List String) (a : Appointment) : AppointmentDoc :=
  { patientName := if "patientName" ∈ paths then some a.patientName else none
    doctor := if "doctor" ∈ paths then some a.doctor else none
    date := if "date" ∈ paths then some a.date else none
    slot := if "slot" ∈ paths then some a.slot else none }

/-- The order of `.sort({ date: 1, slot: 1 })`: by `date`, then by `slot`, each
compared as the sequence of its characters. -/
def sortKeyLe (a b : Appointment) : Prop :=
  a.date.toList < b.date.toList ∨ (a.date = b.date ∧ a.slot.toList ≤ b.slot.toList)

instance sortKeyLe.decidable : DecidableRel sortKeyLe :=
  fun a b => inferInstanceAs
    (Decidable (a.date.toList < b.date.toList ∨ (a.date = b.date ∧ a.slot.toList ≤ b.slot.toList)))

/-- The transformation `appointments.map(apt => ({ patient: apt.patientName, ... }))`. -/
def toEntry (apt : AppointmentDoc) : Entry :=
  { patient := apt.patientName, doctor := apt.doctor, date := apt.date, slot := apt.slot }

/-! ## `src/server.js` -/

namespace Server

/-- `app.get("/api/test")`. -/
def test (db : Db) : Response × Db :=
  (⟨200, .message "API working"⟩, db)

/-- `app.post("/api/register")`. -/
def register (db : Db) (body : RegisterBody) : Response × Db :=
  if !truthy body.username || !truthy body.password then
    (⟨400, .message "Username and password required"⟩, db)
  else
    let existing := db.users.find? (fun u => eqField body.username u.username)
    if existing.isSome then
      (⟨400, .message "Username already exists"⟩, db)
    else
      match User.validate body.username body.password (some "user") with
      | some newUser =>
          (⟨201, .message "Registered successfully"⟩, { db with users := db.users ++ [newUser] })
      | none => (⟨500, .message "Server error while registering"⟩, db)

/-- `app.post("/api/login")`. -/
def login (db : Db) (body : LoginBody) : Response × Db :=
  let user := db.users.find? (fun u =>
    queryField body.username u.username && queryField body.password u.password
      && queryField body.role u.role)
  if !user.isSome then
    (⟨401, .message "Invalid credentials"⟩, db)
  else
    (⟨200, .message "Login ok"⟩, db)

/-- `app.post("/api/appointments")`. -/
def postAppointments (db : Db) (body : AppointmentBody) : Response × Db :=
  if !truthy body.patient || !truthy body.doctor || !truthy body.date || !truthy body.slot
      || !truthy body.username then
    (⟨400, .message "All fields required"⟩, db)
  else
    let existing := db.appointments.find? (fun a =>
      eqField body.doctor a.doctor && eqField body.date a.date && eqField body.slot a.slot)
    if existing.isSome then
      (⟨400, .message "Slot already booked"⟩, db)
    else
      match Appointment.validate body.patient body.doctor body.date body.slot body.username with
      | some newAppointment =>
          (⟨201, .message "Appointment booked"⟩,
            { db with appointments := db.appointments ++ [newAppointment] })
      | none => (⟨500, .message "Server error while booking"⟩, db)

/-- `app.get("/api/appointments")`. -/
def getAppointments (db : Db) (query : AppointmentQuery) : Response × Db :=
  let appointments :=
    if truthy query.username then
      ((db.appointments.filter (fun a => eqField query.username a.username)).insertionSort
        sortKeyLe).map (select ["doctor", "date", "slot"])
    else
      (db.appointments.insertionSort sortKeyLe).map
        (select ["patientName", "doctor", "date", "slot"])
  let response := appointments.map toEntry
  (⟨200, .entries response⟩, db)

/-- The requests served by `src/server.js`. -/
inductive Request where
  | test
  | register (body : RegisterBody)
  | login (body : LoginBody)
  | postAppointments (body : AppointmentBody)
  | getAppointments (query : AppointmentQuery)
deriving DecidableEq, Repr

/-- Routing of one request to its handler. -/
def handle (db : Db) : Request → Response × Db
  | .test => test db
  | .register body => register db body
  | .login body => login db body
  | .postAppointments body => postAppointments db body
  | .getAppointments query => getAppointments db query

/-- The database after a sequence of requests handled one after the other. -/
def run (db : Db) (requests : List Request) : Db :=
  requests.foldl (fun d r => (handle d r).2) db

end Server

/-! ## `src/api/server.js`

Its `User` model and its register and login handlers.  The state is the `User`
collection; the test and appointment routes of this file use the `Appointment`
collection only and leave the `User` collection as it is. -/

namespace Api

/-- `app.post("/api/register")`. -/
def register (users : List User) (body : RegisterBody) : Response × List User :=
  if !truthy body.username || !truthy body.password then
    (⟨400, .message "Missing fields"⟩, users)
  else
    let existing := users.find? (fun u => eqField body.username u.username)
    if existing.isSome then
      (⟨400, .message "User already exists"⟩, users)
    else
      match User.validate body.username body.password (some "user") with
      | some newUser => (⟨201, .message "Registered successfully"⟩, users ++ [newUser])
      | none => (⟨500, .message "Register error"⟩, users)

/-- `app.post("/api/login")`. -/
def login (users : List User) (body : LoginBody) : Response × List User :=
  if body.role = .string "admin" then
    if body.username = .string "admin" ∧ body.password = .string "Admin@123" then
      (⟨200, .message "Login ok"⟩, users)
    else
      (⟨401, .message "Invalid admin credentials"⟩, users)
  else
    let user := users.find? (fun u =>
      queryField body.username u.username && queryField body.password u.password
        && queryField body.role u.role)
    if !user.isSome then
      (⟨401, .message "Invalid credentials"⟩, users)
    else
      (⟨200, .message "Login ok"⟩, users)

/-- The requests served by `src/api/server.js`. -/
inductive Request where
  | test
  | register (body : RegisterBody)
  | login (body : LoginBody)
  | postAppointments (body : AppointmentBody)
  | getAppointments
deriving DecidableEq, Repr

/-- The `User` collection after one request. -/
def step (users : List User) : Request → List User
  | .test => users
  | .register body => (register users body).2
  | .login body => (login users body).2
  | .postAppointments _ => users
  | .getAppointments => users

/-- The `User` collection after a sequence of requests handled one after the other. -/
def run (users : List User) (requests : List Request) : List User :=
  requests.foldl step users

end Api

/-- The database before any request. -/
def emptyDb : Db := { users := [], appointments := [] }

/-- The `(doctor, date, slot)` triple of an appointment. -/
def triple (a : Appointment) : String × String × String :=
  (a.doctor, a.date, a.slot)

/-- No two stored appointments share their `(doctor, date, slot)` triple. -/
def NoDoubleBooking (appointments : List Appointment) : Prop :=
  (appointments.map triple).Nodup

instance NoDoubleBooking.decidable (l : List Appointment) : Decidable (NoDoubleBooking l) :=
  inferInstanceAs (Decidable ((l.map triple).Nodup))

/-- A request value that is absent or the empty string. -/
def missing (x : Option String) : Prop :=
  x = none ∨ x = some ""

instance missing.decidable (x : Option String) : Decidable (missing x) :=
  inferInstanceAs (Decidable (x = none ∨ x = some ""))

/-- A value of a login body that is a string or absent. -/
def Value.plain : Value → Bool
  | .undefined => true
  | .string _ => true
  | .operator _ _ => false

/-- The entry that carries all four fields of a stored appointment. -/
def fullEntry (a : Appointment) : Entry :=
  { patient := some a.patientName, doctor := some a.doctor, date := some a.date,
    slot := some a.slot }

/-- The `(date, slot)` order on stored appointments, with the order of `String`. -/
def dateSlotLe (a b : Appointment) : Prop :=
  a.date < b.date ∨ (a.date = b.date ∧ a.slot ≤ b.slot)

/-- What a register request does to the `User` collection, for either server:
nothing, or one new user with a fresh username and role "user". -/
def RegisterEffect (before after : List User) : Prop :=
  after = before ∨
    ∃ u : User, after = before ++ [u] ∧ u.role = "user" ∧
      ∀ x ∈ before, x.username ≠ u.username

/-- Usernames are pairwise distinct and every role is "user". -/
def UsersOk (users : List User) : Prop :=
  (users.map User.username).Nodup ∧ ∀ x ∈ users, x.role = "user"

/-! ## Concrete data used in the examples -/

/-- A booking of alice with Dr. A. -/
def aliceA : Appointment :=
  { patientName := "Bob", doctor := "Dr. A", date := "2024-01-02", slot := "10:00",
    username := "alice" }

/-- A booking of alice with Dr. B. -/
def aliceB : Appointment :=
  { patientName := "Carl", doctor := "Dr. B", date := "2024-01-01", slot := "11:00",
    username := "alice" }

/-- A booking of bob with Dr. B. -/
def bobB : Appointment :=
  { patientName := "Dan", doctor := "Dr. B", date := "2024-01-01", slot := "09:00",
    username := "bob" }

/-- A registered user. -/
def userAlice : User := { username := "alice", password := "pw", role := "user" }

/-- A database with one user and three appointments. -/
def sampleDb : Db := { users := [userAlice], appointments := [aliceA, aliceB, bobB] }

/-! ## Basic facts about the primitives -/

theorem truthy_iff (x : Option String) : truthy x = true ↔ ∃ s, x = some s ∧ s ≠ "" := by
  cases x <;> simp [truthy]

theorem truthy_eq_false_iff (x : Option String) : truthy x = false ↔ missing x := by
  cases x <;> simp [truthy, missing]

theorem truthy_some {s : String} (h : s ≠ "") : truthy (some s) = true := by
  simp [truthy, h]

theorem eqField_some (s v : String) : eqField (some s) v = true ↔ v = s := by
  simp [eqField, eq_comm]

theorem eqField_iff (x : Option String) (v : String) : eqField x v = true ↔ x = some v := by
  simp [eqField]

theorem required_some {s : String} (h : s ≠ "") : required (some s) = some s := by
  simp [required, h]

theorem sortKeyLe_iff (a b : Appointment) : sortKeyLe a b ↔ dateSlotLe a b := by
  simp only [sortKeyLe, dateSlotLe, String.lt_iff_toList_lt, String.le_iff_toList_le]

theorem sortKeyLe_total (a b : Appointment) : sortKeyLe a b ∨ sortKeyLe b a := by
  simp only [sortKeyLe_iff, dateSlotLe]
  rcases lt_trichotomy a.date b.date with h | h | h
  · exact Or.inl (Or.inl h)
  · rcases le_total a.slot b.slot with h2 | h2
    · exact Or.inl (Or.inr ⟨h, h2⟩)
    · exact Or.inr (Or.inr ⟨h.symm, h2⟩)
  · exact Or.inr (Or.inl h)

theorem sortKeyLe_trans (a b c : Appointment) :
    sortKeyLe a b → sortKeyLe b c → sortKeyLe a c := by
  simp only [sortKeyLe_iff, dateSlotLe]
  rintro (h1 | ⟨h1, h1s⟩) (h2 | ⟨h2, h2s⟩)
  · exact Or.inl (lt_trans h1 h2)
  · exact Or.inl (h2 ▸ h1)
  · exact Or.inl (h1 ▸ h2)
  · exact Or.inr ⟨h1.trans h2, le_trans h1s h2s⟩

theorem sorted_insertionSort_dateSlotLe (l : List Appointment) :
    (l.insertionSort sortKeyLe).Sorted dateSlotLe := by
  haveI : IsTotal Appointment sortKeyLe := ⟨sortKeyLe_total⟩
  haveI : IsTrans Appointment sortKeyLe := ⟨sortKeyLe_trans⟩
  exact (List.sorted_insertionSort sortKeyLe l).imp (fun h => (sortKeyLe_iff _ _).1 h)

/-! ## `POST /api/appointments` of `src/server.js` -/

theorem find_triple_isSome (l : List Appointment) (doctor date slot : String) :
    (l.find? (fun a => eqField (some doctor) a.doctor && eqField (some date) a.date
        && eqField (some slot) a.slot)).isSome = true ↔
      ∃ a ∈ l, a.doctor = doctor ∧ a.date = date ∧ a.slot = slot := by
  simp [List.find?_isSome, eqField_some, and_assoc]

theorem postAppointments_booked (db : Db) (patient doctor date slot username : String)
    (hp : patient ≠ "") (hd : doctor ≠ "") (ht : date ≠ "") (hs : slot ≠ "")
    (hu : username ≠ "")
    (h : ∃ a ∈ db.appointments, a.doctor = doctor ∧ a.date = date ∧ a.slot = slot) :
    Server.postAppointments db
        ⟨some patient, some doctor, some date, some slot, some username⟩ =
      (⟨400, .message "Slot already booked"⟩, db) := by
  have hf := (find_triple_isSome db.appointments doctor date slot).2 h
  simp only [Server.postAppointments, truthy_some hp, truthy_some hd, truthy_some ht,
    truthy_some hs, truthy_some hu, hf]
  simp

theorem postAppointments_free (db : Db) (patient doctor date slot username : String)
    (hp : patient ≠ "") (hd : doctor ≠ "") (ht : date ≠ "") (hs : slot ≠ "")
    (hu : username ≠ "")
    (h : ¬ ∃ a ∈ db.appointments, a.doctor = doctor ∧ a.date = date ∧ a.slot = slot) :
    Server.postAppointments db
        ⟨some patient, some doctor, some date, some slot, some username⟩ =
      (⟨201, .message "Appointment booked"⟩,
        { db with appointments := db.appointments ++ [⟨patient, doctor, date, slot, username⟩] }) := by
  have hf : (db.appointments.find? (fun a => eqField (some doctor) a.doctor
      && eqField (some date) a.date && eqField (some slot) a.slot)).isSome = false := by
    rw [Bool.eq_false_iff, Ne, find_triple_isSome]
    exact h
  simp only [Server.postAppointments, truthy_some hp, truthy_some hd, truthy_some ht,
    truthy_some hs, truthy_some hu, hf, Appointment.validate, required_some hp,
    required_some hd, required_some ht, required_some hs, required_some hu]
  simp

theorem postAppointments_missing (db : Db) (body : AppointmentBody)
    (h : missing body.patient ∨ missing body.doctor ∨ missing body.date ∨ missing body.slot
      ∨ missing body.username) :
    Server.postAppointments db body = (⟨400, .message "All fields required"⟩, db) := by
  simp only [← truthy_eq_false_iff] at h
  have hc : (!truthy body.patient || !truthy body.doctor || !truthy body.date
      || !truthy body.slot || !truthy body.username) = true := by
    rcases h with h | h | h | h | h <;> simp [h]
  simp only [Server.postAppointments, hc, if_true]

theorem required_eq_some {x : Option String} {s : String} (h : required x = some s) :
    x = some s := by
  cases x with
  | none => simp [required] at h
  | some t =>
    by_cases ht : t = ""
    · simp [required, ht] at h
    · simpa [required, ht] using h

theorem appointment_validate_eq_some {p d t s u : Option String} {a : Appointment}
    (h : Appointment.validate p d t s u = some a) :
    p = some a.patientName ∧ d = some a.doctor ∧ t = some a.date ∧ s = some a.slot
      ∧ u = some a.username := by
  unfold Appointment.validate at h
  split at h
  · next hp hd ht hs hu =>
    cases h
    exact ⟨required_eq_some hp, required_eq_some hd, required_eq_some ht, required_eq_some hs,
      required_eq_some hu⟩
  · cases h

theorem user_validate_eq_some {n p r : Option String} {u : User}
    (h : User.validate n p r = some u) :
    n = some u.username ∧ p = some u.password ∧ r = some u.role := by
  unfold User.validate at h
  split at h
  · next hn hp hr =>
    cases h
    exact ⟨required_eq_some hn, required_eq_some hp, required_eq_some hr⟩
  · cases h

theorem postAppointments_users (db : Db) (body : AppointmentBody) :
    (Server.postAppointments db body).2.users = db.users := by
  simp only [Server.postAppointments]
  split_ifs
  · rfl
  · rfl
  · split <;> rfl

theorem postAppointments_appointments (db : Db) (body : AppointmentBody) :
    (Server.postAppointments db body).2.appointments = db.appointments ∨
      ∃ a, (Server.postAppointments db body).2.appointments = db.appointments ++ [a] ∧
        ∀ b ∈ db.appointments, triple b ≠ triple a := by
  simp only [Server.postAppointments]
  split_ifs with hmiss hfind
  · exact Or.inl rfl
  · exact Or.inl rfl
  · split
    · next a ha =>
      refine Or.inr ⟨a, rfl, ?_⟩
      obtain ⟨-, hd, ht, hs, -⟩ := appointment_validate_eq_some ha
      intro b hb heq
      apply hfind
      rw [List.find?_isSome]
      refine ⟨b, hb, ?_⟩
      simp only [triple, Prod.mk.injEq] at heq
      simp [hd, ht, hs, eqField, heq.1, heq.2.1, heq.2.2]
    · exact Or.inl rfl

theorem noDoubleBooking_append {l : List Appointment} {a : Appointment}
    (h : NoDoubleBooking l) (ha : ∀ b ∈ l, triple b ≠ triple a) :
    NoDoubleBooking (l ++ [a]) := by
  unfold NoDoubleBooking at *
  rw [List.map_append, List.nodup_append]
  refine ⟨h, by simp, ?_⟩
  simp only [List.map_cons, List.map_nil, List.disjoint_singleton, List.mem_map, not_exists,
    not_and]
  exact ha

theorem register_appointments (db : Db) (body : RegisterBody) :
    (Server.register db body).2.appointments = db.appointments := by
  simp only [Server.register]
  split_ifs
  · rfl
  · rfl
  · split <;> rfl

theorem login_snd (db : Db) (body : LoginBody) : (Server.login db body).2 = db := by
  simp only [Server.login]
  split_ifs <;> rfl

theorem getAppointments_snd (db : Db) (query : AppointmentQuery) :
    (Server.getAppointments db query).2 = db := rfl

theorem handle_noDoubleBooking (db : Db) (req : Server.Request)
    (h : NoDoubleBooking db.appointments) :
    NoDoubleBooking (Server.handle db req).2.appointments := by
  cases req with
  | test => exact h
  | register body => simpa [Server.handle, register_appointments] using h
  | login body => simpa [Server.handle, login_snd] using h
  | postAppointments body =>
    rcases postAppointments_appointments db body with h1 | ⟨a, h1, h2⟩
    · simpa [Server.handle, h1] using h
    · simpa [Server.handle, h1] using noDoubleBooking_append h h2
  | getAppointments query => exact h

theorem run_noDoubleBooking (requests : List Server.Request) (db : Db)
    (h : NoDoubleBooking db.appointments) :
    NoDoubleBooking (Server.run db requests).appointments := by
  induction requests generalizing db with
  | nil => exact h
  | cons r rs ih => exact ih _ (handle_noDoubleBooking db r h)

theorem noDoubleBooking_filter_length {l : List Appointment} (h : NoDoubleBooking l)
    (t : String × String × String) :
    (l.filter (fun a => triple a = t)).length ≤ 1 := by
  induction l with
  | nil => simp
  | cons a l ih =>
    unfold NoDoubleBooking at h ih
    rw [List.map_cons, List.nodup_cons] at h
    by_cases hat : triple a = t
    · have hnone : l.filter (fun a => triple a = t) = [] := by
        rw [List.filter_eq_nil_iff]
        intro b hb
        simp only [decide_eq_true_eq]
        intro hbt
        exact h.1 (List.mem_map.2 ⟨b, hb, hbt.trans hat.symm⟩)
      simp [List.filter_cons, hat, hnone]
    · simpa [List.filter_cons, hat] using ih h.2

/-- C1. Handling one request of `src/server.js` keeps the appointment store free
of two records with the same `(doctor, date, slot)` triple, so does any finite
sequence of requests, and every store reached from the empty database holds each
triple at most once. -/
theorem noDoubleBooking_invariant (db : Db) (req : Server.Request)
    (requests : List Server.Request) (t : String × String × String)
    (h : NoDoubleBooking db.appointments) :
    NoDoubleBooking (Server.handle db req).2.appointments ∧
      NoDoubleBooking (Server.run db requests).appointments ∧
      NoDoubleBooking (Server.run emptyDb requests).appointments ∧
      ((Server.run emptyDb requests).appointments.filter
        (fun a => triple a = t)).length ≤ 1 := by
  have hempty : NoDoubleBooking (Server.run emptyDb requests).appointments :=
    run_noDoubleBooking requests emptyDb (by simp [NoDoubleBooking, emptyDb])
  exact ⟨handle_noDoubleBooking db req h, run_noDoubleBooking requests db h, hempty,
    noDoubleBooking_filter_length hempty t⟩

theorem noDoubleBooking_invariant_witness :
    NoDoubleBooking sampleDb.appointments ∧
      NoDoubleBooking (Server.handle sampleDb
        (.postAppointments ⟨some "Eve", some "Dr. A", some "2024-01-02", some "10:00",
          some "eve"⟩)).2.appointments ∧
      NoDoubleBooking (Server.run sampleDb
        [.postAppointments ⟨some "Eve", some "Dr. A", some "2024-01-02", some "10:30",
          some "eve"⟩, .getAppointments ⟨none⟩]).appointments ∧
      NoDoubleBooking (Server.run emptyDb
        [.postAppointments ⟨some "Eve", some "Dr. A", some "2024-01-02", some "10:30",
          some "eve"⟩, .getAppointments ⟨none⟩]).appointments ∧
      ((Server.run emptyDb
        [.postAppointments ⟨some "Eve", some "Dr. A", some "2024-01-02", some "10:30",
          some "eve"⟩, .getAppointments ⟨none⟩]).appointments.filter
          (fun a => triple a = ("Dr. A", "2024-01-02", "10:30"))).length ≤ 1 :=
  ⟨by decide, noDoubleBooking_invariant sampleDb _ _ _ (by decide)⟩

/-- C2. With five non-empty fields, `POST /api/appointments` of `src/server.js`
answers 400 "Slot already booked" and leaves the store as it is when a stored
appointment has the same doctor, date and slot, and otherwise answers 201
"Appointment booked" and appends the one new record; a second booking of the same
triple fails whatever its patient and username, and a booking of another date or
slot with the same doctor succeeds when that triple is free. -/
theorem postAppointments_spec (db : Db) (patient doctor date slot username : String)
    (patient2 date2 slot2 username2 : String)
    (hp : patient ≠ "") (hd : doctor ≠ "") (ht : date ≠ "") (hs : slot ≠ "")
    (hu : username ≠ "") (hp2 : patient2 ≠ "") (ht2 : date2 ≠ "") (hs2 : slot2 ≠ "")
    (hu2 : username2 ≠ "") (hdiff : date2 ≠ date ∨ slot2 ≠ slot) :
    Server.postAppointments db
        ⟨some patient, some doctor, some date, some slot, some username⟩ =
      (if ∃ a ∈ db.appointments, a.doctor = doctor ∧ a.date = date ∧ a.slot = slot then
        (⟨400, .message "Slot already booked"⟩, db)
      else
        (⟨201, .message "Appointment booked"⟩,
          { db with
            appointments := db.appointments ++ [⟨patient, doctor, date, slot, username⟩] })) ∧
    Server.postAppointments
        (Server.postAppointments db
          ⟨some patient, some doctor, some date, some slot, some username⟩).2
        ⟨some patient2, some doctor, some date, some slot, some username2⟩ =
      (⟨400, .message "Slot already booked"⟩,
        (Server.postAppointments db
          ⟨some patient, some doctor, some date, some slot, some username⟩).2) ∧
    (Server.postAppointments
        (Server.postAppointments db
          ⟨some patient, some doctor, some date, some slot, some username⟩).2
        ⟨some patient2, some doctor, some date2, some slot2, some username2⟩).1 =
      (if ∃ a ∈ db.appointments, a.doctor = doctor ∧ a.date = date2 ∧ a.slot = slot2 then
        ⟨400, .message "Slot already booked"⟩
      else ⟨201, .message "Appointment booked"⟩) := by
  have hfirst : Server.postAppointments db
        ⟨some patient, some doctor, some date, some slot, some username⟩ =
      (if ∃ a ∈ db.appointments, a.doctor = doctor ∧ a.date = date ∧ a.slot = slot then
        (⟨400, .message "Slot already booked"⟩, db)
      else
        (⟨201, .message "Appointment booked"⟩,
          { db with
            appointments := db.appointments ++ [⟨patient, doctor, date, slot, username⟩] })) := by
    split_ifs with h
    · exact postAppointments_booked db _ _ _ _ _ hp hd ht hs hu h
    · exact postAppointments_free db _ _ _ _ _ hp hd ht hs hu h
  refine ⟨hfirst, ?_, ?_⟩
  · apply postAppointments_booked _ _ _ _ _ _ hp2 hd ht hs hu2
    rw [hfirst]
    split_ifs with h
    · exact h
    · exact ⟨⟨patient, doctor, date, slot, username⟩, by simp, rfl, rfl, rfl⟩
  · rw [hfirst]
    by_cases h : ∃ a ∈ db.appointments, a.doctor = doctor ∧ a.date = date ∧ a.slot = slot
    · rw [if_pos h]
      split_ifs with h2
      · rw [postAppointments_booked db _ _ _ _ _ hp2 hd ht2 hs2 hu2 h2]
      · rw [postAppointments_free db _ _ _ _ _ hp2 hd ht2 hs2 hu2 h2]
    · rw [if_neg h]
      split_ifs with h2
      · rw [postAppointments_booked _ _ _ _ _ _ hp2 hd ht2 hs2 hu2]
        obtain ⟨a, ha, hh⟩ := h2
        exact ⟨a, by simp [ha], hh⟩
      · rw [postAppointments_free _ _ _ _ _ _ hp2 hd ht2 hs2 hu2]
        rintro ⟨a, ha, h1, h3, h4⟩
        simp only [List.mem_append, List.mem_singleton] at ha
        rcases ha with ha | ha
        · exact h2 ⟨a, ha, h1, h3, h4⟩
        · subst ha
          rcases hdiff with hd2 | hd2
          · exact hd2 h3.symm
          · exact hd2 h4.symm

theorem postAppointments_spec_witness :
    ("Eve" ≠ "" ∧ "Dr. A" ≠ "" ∧ "2024-01-01" ≠ "" ∧ "10:00" ≠ "" ∧ "eve" ≠ "" ∧
      "Finn" ≠ "" ∧ "2024-01-01" ≠ "" ∧ "10:30" ≠ "" ∧ "finn" ≠ "" ∧
      ("2024-01-01" ≠ "2024-01-01" ∨ "10:30" ≠ "10:00")) ∧
    (Server.postAppointments sampleDb
        ⟨some "Eve", some "Dr. A", some "2024-01-01", some "10:00", some "eve"⟩ =
      (if ∃ a ∈ sampleDb.appointments,
          a.doctor = "Dr. A" ∧ a.date = "2024-01-01" ∧ a.slot = "10:00" then
        (⟨400, .message "Slot already booked"⟩, sampleDb)
      else
        (⟨201, .message "Appointment booked"⟩,
          { sampleDb with
            appointments := sampleDb.appointments ++
              [⟨"Eve", "Dr. A", "2024-01-01", "10:00", "eve"⟩] })) ∧
    Server.postAppointments
        (Server.postAppointments sampleDb
          ⟨some "Eve", some "Dr. A", some "2024-01-01", some "10:00", some "eve"⟩).2
        ⟨some "Finn", some "Dr. A", some "2024-01-01", some "10:00", some "finn"⟩ =
      (⟨400, .message "Slot already booked"⟩,
        (Server.postAppointments sampleDb
          ⟨some "Eve", some "Dr. A", some "2024-01-01", some "10:00", some "eve"⟩).2) ∧
    (Server.postAppointments
        (Server.postAppointments sampleDb
          ⟨some "Eve", some "Dr. A", some "2024-01-01", some "10:00", some "eve"⟩).2
        ⟨some "Finn", some "Dr. A", some "2024-01-01", some "10:30", some "finn"⟩).1 =
      (if ∃ a ∈ sampleDb.appointments,
          a.doctor = "Dr. A" ∧ a.date = "2024-01-01" ∧ a.slot = "10:30" then
        ⟨400, .message "Slot already booked"⟩
      else ⟨201, .message "Appointment booked"⟩)) :=
  ⟨by decide, postAppointments_spec sampleDb "Eve" "Dr. A" "2024-01-01" "10:00" "eve"
    "Finn" "2024-01-01" "10:30" "finn" (by decide) (by decide) (by decide) (by decide)
    (by decide) (by decide) (by decide) (by decide) (by decide) (by decide)⟩

/-- C3. When at least one of patient, doctor, date, slot, username is absent or
the empty string, `POST /api/appointments` of `src/server.js` answers 400
"All fields required" and leaves the store as it is, also when the requested
triple is already booked. -/
theorem postAppointments_validation (db : Db) (body : AppointmentBody)
    (h : missing body.patient ∨ missing body.doctor ∨ missing body.date ∨ missing body.slot
      ∨ missing body.username) :
    Server.postAppointments db body = (⟨400, .message "All fields required"⟩, db) :=
  postAppointments_missing db body h

theorem postAppointments_validation_witness :
    (missing (none : Option String) ∨ missing (some "Dr. A") ∨ missing (some "2024-01-02")
      ∨ missing (some "10:00") ∨ missing (some "")) ∧
    (∃ a ∈ sampleDb.appointments,
      a.doctor = "Dr. A" ∧ a.date = "2024-01-02" ∧ a.slot = "10:00") ∧
    Server.postAppointments sampleDb
        ⟨none, some "Dr. A", some "2024-01-02", some "10:00", some ""⟩ =
      (⟨400, .message "All fields required"⟩, sampleDb) :=
  ⟨by decide, by decide,
    postAppointments_validation sampleDb
      ⟨none, some "Dr. A", some "2024-01-02", some "10:00", some ""⟩ (by decide)⟩

/-! ## `GET /api/appointments` of `src/server.js` -/

theorem getAppointments_filtered_eq (db : Db) (u : String) (hu : u ≠ "") :
    Server.getAppointments db ⟨some u⟩ =
      (⟨200, .entries (((db.appointments.filter (fun a => a.username = u)).insertionSort
        sortKeyLe).map (fun a => ⟨none, some a.doctor, some a.date, some a.slot⟩))⟩, db) := by
  have hfilter : db.appointments.filter (fun a => eqField (some u) a.username) =
      db.appointments.filter (fun a => a.username = u) := by
    apply List.filter_congr
    intro a _
    rw [Bool.eq_iff_iff, eqField_some]
    simp
  have hmap : toEntry ∘ select ["doctor", "date", "slot"] =
      fun a => ⟨none, some a.doctor, some a.date, some a.slot⟩ := by
    funext a
    simp [toEntry, select]
  simp only [Server.getAppointments, truthy_some hu, if_true, hfilter, List.map_map, hmap]

theorem getAppointments_all_eq (db : Db) (query : AppointmentQuery)
    (h : missing query.username) :
    Server.getAppointments db query =
      (⟨200, .entries ((db.appointments.insertionSort sortKeyLe).map fullEntry)⟩, db) := by
  rw [← truthy_eq_false_iff] at h
  have hmap : toEntry ∘ select ["patientName", "doctor", "date", "slot"] = fullEntry := by
    funext a
    simp [toEntry, select, fullEntry]
  simp only [Server.getAppointments, h, Bool.false_eq_true, if_false, List.map_map, hmap]

/-- C4. With a non-empty username filter `u`, `GET /api/appointments` of
`src/server.js` answers with one entry per stored appointment of `u` and no other:
the `(doctor, date, slot)` values of the entries are those of a permutation of the
appointments of `u` that is in non-decreasing order of date and, for equal dates,
of slot, as strings. -/
theorem getAppointments_filtered (db : Db) (u : String) (hu : u ≠ "") :
    ∃ (l : List Appointment) (es : List Entry),
      l.Perm (db.appointments.filter (fun a => a.username = u)) ∧
      l.Sorted dateSlotLe ∧
      Server.getAppointments db ⟨some u⟩ = (⟨200, .entries es⟩, db) ∧
      es.map (fun e => (e.doctor, e.date, e.slot)) =
        l.map (fun a => (some a.doctor, some a.date, some a.slot)) := by
  refine ⟨(db.appointments.filter (fun a => a.username = u)).insertionSort sortKeyLe, _,
    List.perm_insertionSort _ _, sorted_insertionSort_dateSlotLe _,
    getAppointments_filtered_eq db u hu, ?_⟩
  simp [List.map_map, Function.comp_def]

theorem getAppointments_filtered_witness :
    "alice" ≠ "" ∧
    ∃ (l : List Appointment) (es : List Entry),
      l.Perm (sampleDb.appointments.filter (fun a => a.username = "alice")) ∧
      l.Sorted dateSlotLe ∧
      Server.getAppointments sampleDb ⟨some "alice"⟩ = (⟨200, .entries es⟩, sampleDb) ∧
      es.map (fun e => (e.doctor, e.date, e.slot)) =
        l.map (fun a => (some a.doctor, some a.date, some a.slot)) :=
  ⟨by decide, getAppointments_filtered sampleDb "alice" (by decide)⟩

/-- C5. On the store holding the single appointment `aliceA` (patientName "Bob",
owner "alice"), `GET /api/appointments?username=alice` of `src/server.js` answers
with one entry whose `patient` is undefined, not "Bob": the filtered query selects
`doctor date slot` only, so `apt.patientName` is undefined in the transformation. -/
theorem getAppointments_filtered_patient_undefined :
    Server.getAppointments { users := [], appointments := [aliceA] } ⟨some "alice"⟩ =
      (⟨200, .entries
        [{ patient := none, doctor := some "Dr. A", date := some "2024-01-02",
           slot := some "10:00" }]⟩,
        { users := [], appointments := [aliceA] }) ∧
    (Server.getAppointments { users := [], appointments := [aliceA] } ⟨some "alice"⟩).1 ≠
      ⟨200, .entries [fullEntry aliceA]⟩ := by
  decide

/-- C6. With no username filter (absent or empty), `GET /api/appointments` of
`src/server.js` answers with one entry `{patient: patientName, doctor, date, slot}`
per stored appointment, whoever owns it, in non-decreasing order of date and then
slot as strings, and leaves the store as it is. -/
theorem getAppointments_all (db : Db) (query : AppointmentQuery)
    (h : missing query.username) :
    ∃ l : List Appointment,
      l.Perm db.appointments ∧
      l.Sorted dateSlotLe ∧
      Server.getAppointments db query = (⟨200, .entries (l.map fullEntry)⟩, db) :=
  ⟨db.appointments.insertionSort sortKeyLe, List.perm_insertionSort _ _,
    sorted_insertionSort_dateSlotLe _, getAppointments_all_eq db query h⟩

theorem getAppointments_all_witness :
    missing (none : Option String) ∧
    ∃ l : List Appointment,
      l.Perm sampleDb.appointments ∧
      l.Sorted dateSlotLe ∧
      Server.getAppointments sampleDb ⟨none⟩ = (⟨200, .entries (l.map fullEntry)⟩, sampleDb) :=
  ⟨by decide, getAppointments_all sampleDb ⟨none⟩ (by decide)⟩

/-! ## `POST /api/register` of both servers -/

theorem find_username_isSome (l : List User) (u : String) :
    (l.find? (fun x => eqField (some u) x.username)).isSome = true ↔
      ∃ x ∈ l, x.username = u := by
  simp [List.find?_isSome, eqField_some]

theorem register_missing (db : Db) (body : RegisterBody)
    (h : missing body.username ∨ missing body.password) :
    Server.register db body = (⟨400, .message "Username and password required"⟩, db) := by
  simp only [← truthy_eq_false_iff] at h
  have hc : (!truthy body.username || !truthy body.password) = true := by
    rcases h with h | h <;> simp [h]
  simp only [Server.register, hc, if_true]

theorem register_present (db : Db) (username password : String) (hu : username ≠ "")
    (hp : password ≠ "") :
    Server.register db ⟨some username, some password⟩ =
      (if ∃ x ∈ db.users, x.username = username then
        (⟨400, .message "Username already exists"⟩, db)
      else
        (⟨201, .message "Registered successfully"⟩,
          { db with users := db.users ++ [⟨username, password, "user"⟩] })) := by
  have huser : required (some "user") = some "user" := by decide
  split_ifs with h
  · have hf := (find_username_isSome db.users username).2 h
    simp only [Server.register, truthy_some hu, truthy_some hp, hf]
    simp
  · have hf : (db.users.find? (fun x => eqField (some username) x.username)).isSome = false := by
      rw [Bool.eq_false_iff, Ne, find_username_isSome]
      exact h
    simp only [Server.register, truthy_some hu, truthy_some hp, hf, User.validate,
      required_some hu, required_some hp, huser]
    simp

theorem api_register_missing (users : List User) (body : RegisterBody)
    (h : missing body.username ∨ missing body.password) :
    Api.register users body = (⟨400, .message "Missing fields"⟩, users) := by
  simp only [← truthy_eq_false_iff] at h
  have hc : (!truthy body.username || !truthy body.password) = true := by
    rcases h with h | h <;> simp [h]
  simp only [Api.register, hc, if_true]

theorem api_register_present (users : List User) (username password : String)
    (hu : username ≠ "") (hp : password ≠ "") :
    Api.register users ⟨some username, some password⟩ =
      (if ∃ x ∈ users, x.username = username then
        (⟨400, .message "User already exists"⟩, users)
      else
        (⟨201, .message "Registered successfully"⟩, users ++ [⟨username, password, "user"⟩])) := by
  have huser : required (some "user") = some "user" := by decide
  split_ifs with h
  · have hf := (find_username_isSome users username).2 h
    simp only [Api.register, truthy_some hu, truthy_some hp, hf]
    simp
  · have hf : (users.find? (fun x => eqField (some username) x.username)).isSome = false := by
      rw [Bool.eq_false_iff, Ne, find_username_isSome]
      exact h
    simp only [Api.register, truthy_some hu, truthy_some hp, hf, User.validate,
      required_some hu, required_some hp, huser]
    simp

theorem register_effect (db : Db) (body : RegisterBody) :
    RegisterEffect db.users (Server.register db body).2.users := by
  simp only [Server.register]
  split_ifs with hmiss hfind
  · exact Or.inl rfl
  · exact Or.inl rfl
  · split
    · next u hu =>
      refine Or.inr ⟨u, rfl, ?_, ?_⟩
      · have := (user_validate_eq_some hu).2.2
        exact (Option.some.inj this).symm
      · obtain ⟨hn, -, -⟩ := user_validate_eq_some hu
        intro x hx heq
        apply hfind
        rw [List.find?_isSome]
        exact ⟨x, hx, by simp [hn, eqField, heq]⟩
    · exact Or.inl rfl

theorem api_register_effect (users : List User) (body : RegisterBody) :
    RegisterEffect users (Api.register users body).2 := by
  simp only [Api.register]
  split_ifs with hmiss hfind
  · exact Or.inl rfl
  · exact Or.inl rfl
  · split
    · next u hu =>
      refine Or.inr ⟨u, rfl, ?_, ?_⟩
      · have := (user_validate_eq_some hu).2.2
        exact (Option.some.inj this).symm
      · obtain ⟨hn, -, -⟩ := user_validate_eq_some hu
        intro x hx heq
        apply hfind
        rw [List.find?_isSome]
        exact ⟨x, hx, by simp [hn, eqField, heq]⟩
    · exact Or.inl rfl

theorem RegisterEffect.usersOk {before after : List User} (h : RegisterEffect before after)
    (hb : UsersOk before) : UsersOk after := by
  rcases h with h | ⟨u, h, hrole, hfresh⟩
  · rw [h]; exact hb
  · subst h
    refine ⟨?_, ?_⟩
    · rw [List.map_append, List.nodup_append]
      refine ⟨hb.1, by simp, ?_⟩
      simp only [List.map_cons, List.map_nil, List.disjoint_singleton, List.mem_map, not_exists,
        not_and]
      exact hfresh
    · intro x hx
      simp only [List.mem_append, List.mem_singleton] at hx
      rcases hx with hx | hx
      · exact hb.2 x hx
      · rw [hx]; exact hrole

theorem handle_usersOk (db : Db) (req : Server.Request) (h : UsersOk db.users) :
    UsersOk (Server.handle db req).2.users := by
  cases req with
  | test => exact h
  | register body => exact (register_effect db body).usersOk h
  | login body => simpa [Server.handle, login_snd] using h
  | postAppointments body => simpa [Server.handle, postAppointments_users] using h
  | getAppointments query => exact h

theorem run_usersOk (requests : List Server.Request) (db : Db) (h : UsersOk db.users) :
    UsersOk (Server.run db requests).users := by
  induction requests generalizing db with
  | nil => exact h
  | cons r rs ih => exact ih _ (handle_usersOk db r h)

theorem api_login_snd (users : List User) (body : LoginBody) :
    (Api.login users body).2 = users := by
  simp only [Api.login]
  split_ifs <;> rfl

theorem api_step_usersOk (users : List User) (req : Api.Request) (h : UsersOk users) :
    UsersOk (Api.step users req) := by
  cases req with
  | test => exact h
  | register body => exact (api_register_effect users body).usersOk h
  | login body => simpa [Api.step, api_login_snd] using h
  | postAppointments body => exact h
  | getAppointments => exact h

theorem api_run_usersOk (requests : List Api.Request) (users : List User) (h : UsersOk users) :
    UsersOk (Api.run users requests) := by
  induction requests generalizing users with
  | nil => exact h
  | cons r rs ih => exact ih _ (api_step_usersOk users r h)

theorem usersOk_nil : UsersOk [] := by
  simp [UsersOk]

/-- C7. `POST /api/register` of `src/server.js` and of `src/api/server.js`: a
missing or empty username or password gives 400 and leaves the store as it is;
otherwise a username that is already stored gives 400 and leaves the store as it
is, whatever the password; otherwise the answer is 201 and the store gains the one
user with that username, that password and role "user".  Registering a username a
second time fails, and the usernames of every store reached from the empty one are
pairwise distinct. -/
theorem register_spec (db : Db) (users : List User) (body : RegisterBody)
    (username password password2 : String) (requests : List Server.Request)
    (apiRequests : List Api.Request)
    (hmiss : missing body.username ∨ missing body.password)
    (hu : username ≠ "") (hp : password ≠ "") (hp2 : password2 ≠ "") :
    (Server.register db body = (⟨400, .message "Username and password required"⟩, db) ∧
      Api.register users body = (⟨400, .message "Missing fields"⟩, users)) ∧
    (Server.register db ⟨some username, some password⟩ =
        (if ∃ x ∈ db.users, x.username = username then
          (⟨400, .message "Username already exists"⟩, db)
        else
          (⟨201, .message "Registered successfully"⟩,
            { db with users := db.users ++ [⟨username, password, "user"⟩] })) ∧
      Api.register users ⟨some username, some password⟩ =
        (if ∃ x ∈ users, x.username = username then
          (⟨400, .message "User already exists"⟩, users)
        else
          (⟨201, .message "Registered successfully"⟩,
            users ++ [⟨username, password, "user"⟩]))) ∧
    (Server.register (Server.register db ⟨some username, some password⟩).2
          ⟨some username, some password2⟩ =
        (⟨400, .message "Username already exists"⟩,
          (Server.register db ⟨some username, some password⟩).2) ∧
      Api.register (Api.register users ⟨some username, some password⟩).2
          ⟨some username, some password2⟩ =
        (⟨400, .message "User already exists"⟩,
          (Api.register users ⟨some username, some password⟩).2)) ∧
    (((Server.run emptyDb requests).users.map User.username).Nodup ∧
      ((Api.run [] apiRequests).map User.username).Nodup) := by
  refine ⟨⟨register_missing db body hmiss, api_register_missing users body hmiss⟩,
    ⟨register_present db username password hu hp,
      api_register_present users username password hu hp⟩, ⟨?_, ?_⟩,
    ⟨(run_usersOk requests emptyDb usersOk_nil).1, (api_run_usersOk apiRequests [] usersOk_nil).1⟩⟩
  · rw [register_present _ username password2 hu hp2, if_pos]
    rw [register_present db username password hu hp]
    split_ifs with h
    · exact h
    · exact ⟨⟨username, password, "user"⟩, by simp, rfl⟩
  · rw [api_register_present _ username password2 hu hp2, if_pos]
    rw [api_register_present users username password hu hp]
    split_ifs with h
    · exact h
    · exact ⟨⟨username, password, "user"⟩, by simp, rfl⟩

theorem register_spec_witness :
    ((missing (some "") ∨ missing (some "pw")) ∧ "bob" ≠ "" ∧ "pw1" ≠ "" ∧ "pw2" ≠ "") ∧
    (Server.register sampleDb ⟨some "", some "pw"⟩ =
        (⟨400, .message "Username and password required"⟩, sampleDb) ∧
      Api.register [userAlice] ⟨some "", some "pw"⟩ =
        (⟨400, .message "Missing fields"⟩, [userAlice])) ∧
    (Server.register sampleDb ⟨some "bob", some "pw1"⟩ =
        (if ∃ x ∈ sampleDb.users, x.username = "bob" then
          (⟨400, .message "Username already exists"⟩, sampleDb)
        else
          (⟨201, .message "Registered successfully"⟩,
            { sampleDb with users := sampleDb.users ++ [⟨"bob", "pw1", "user"⟩] })) ∧
      Api.register [userAlice] ⟨some "bob", some "pw1"⟩ =
        (if ∃ x ∈ [userAlice], x.username = "bob" then
          (⟨400, .message "User already exists"⟩, [userAlice])
        else
          (⟨201, .message "Registered successfully"⟩,
            [userAlice] ++ [⟨"bob", "pw1", "user"⟩]))) ∧
    (Server.register (Server.register sampleDb ⟨some "bob", some "pw1"⟩).2
          ⟨some "bob", some "pw2"⟩ =
        (⟨400, .message "Username already exists"⟩,
          (Server.register sampleDb ⟨some "bob", some "pw1"⟩).2) ∧
      Api.register (Api.register [userAlice] ⟨some "bob", some "pw1"⟩).2
          ⟨some "bob", some "pw2"⟩ =
        (⟨400, .message "User already exists"⟩,
          (Api.register [userAlice] ⟨some "bob", some "pw1"⟩).2)) ∧
    (((Server.run emptyDb
          [.register ⟨some "bob", some "pw1"⟩, .register ⟨some "bob", some "pw2"⟩]).users.map
        User.username).Nodup ∧
      ((Api.run []
          [.register ⟨some "bob", some "pw1"⟩, .register ⟨some "bob", some "pw2"⟩]).map
        User.username).Nodup) :=
  ⟨by decide, register_spec sampleDb [userAlice] ⟨some "", some "pw"⟩ "bob" "pw1" "pw2"
    [.register ⟨some "bob", some "pw1"⟩, .register ⟨some "bob", some "pw2"⟩]
    [.register ⟨some "bob", some "pw1"⟩, .register ⟨some "bob", some "pw2"⟩]
    (by decide) (by decide) (by decide) (by decide)⟩

/-! ## `POST /api/login` of both servers -/

theorem queryField_plain {x : Value} (hx : x.plain = true) (v : String) :
    queryField x v = true ↔ Value.string v = x := by
  cases x with
  | undefined => simp [queryField]
  | string s => simp [queryField, eq_comm]
  | operator op s => simp [Value.plain] at hx

theorem find_user_isSome (l : List User) (body : LoginBody)
    (hu : body.username.plain = true) (hp : body.password.plain = true)
    (hr : body.role.plain = true) :
    (l.find? (fun u => queryField body.username u.username
        && queryField body.password u.password && queryField body.role u.role)).isSome = true ↔
      ∃ x ∈ l, Value.string x.username = body.username
        ∧ Value.string x.password = body.password ∧ Value.string x.role = body.role := by
  rw [List.find?_isSome]
  constructor
  · rintro ⟨x, hx, h⟩
    simp only [Bool.and_eq_true, queryField_plain hu, queryField_plain hp,
      queryField_plain hr] at h
    exact ⟨x, hx, h.1.1, h.1.2, h.2⟩
  · rintro ⟨x, hx, h1, h2, h3⟩
    refine ⟨x, hx, ?_⟩
    simp only [Bool.and_eq_true, queryField_plain hu, queryField_plain hp,
      queryField_plain hr]
    exact ⟨⟨h1, h2⟩, h3⟩

theorem find_admin_isSome_false (l : List User) (username password : Value)
    (h : ∀ x ∈ l, x.role = "user") :
    (l.find? (fun u => queryField username u.username && queryField password u.password
        && queryField (.string "admin") u.role)).isSome = false := by
  rw [Bool.eq_false_iff, Ne, List.find?_isSome]
  rintro ⟨x, hx, hq⟩
  simp only [Bool.and_eq_true] at hq
  have hrole := hq.2
  rw [h x hx] at hrole
  exact absurd hrole (by decide)

/-- C8, as stated, fails: on the store holding the one user alice with password
"pw" and role "user", the login body
`{username: {"$ne": ""}, password: {"$ne": ""}, role: "user"}`, whose role is not
"admin", is answered 200 "Login ok" by both servers although no stored user has
the username and the password of the request. -/
theorem login_operator_counterexample :
    (Value.string "user" ≠ Value.string "admin") ∧
    Server.login { users := [userAlice], appointments := [] }
        ⟨.operator .ne "", .operator .ne "", .string "user"⟩ =
      (⟨200, .message "Login ok"⟩, { users := [userAlice], appointments := [] }) ∧
    Api.login [userAlice] ⟨.operator .ne "", .operator .ne "", .string "user"⟩ =
      (⟨200, .message "Login ok"⟩, [userAlice]) ∧
    ¬ ∃ x ∈ [userAlice], Value.string x.username = Value.operator .ne ""
        ∧ Value.string x.password = Value.operator .ne ""
        ∧ Value.string x.role = Value.string "user" := by
  decide

/-- C8, amended. For a request whose username, password and role are each a
string or absent and whose role is not "admin", `POST /api/login` of either
server answers 200 "Login ok" exactly when a stored user has the username, the
password and the role of the request, answers 401 "Invalid credentials"
otherwise, and leaves the store as it is. -/
theorem login_spec (db : Db) (users : List User) (body : LoginBody)
    (hu : body.username.plain = true) (hp : body.password.plain = true)
    (hr : body.role.plain = true) (h : body.role ≠ .string "admin") :
    Server.login db body =
        ((if ∃ x ∈ db.users, Value.string x.username = body.username
            ∧ Value.string x.password = body.password ∧ Value.string x.role = body.role then
          ⟨200, .message "Login ok"⟩
        else ⟨401, .message "Invalid credentials"⟩), db) ∧
      Api.login users body =
        ((if ∃ x ∈ users, Value.string x.username = body.username
            ∧ Value.string x.password = body.password ∧ Value.string x.role = body.role then
          ⟨200, .message "Login ok"⟩
        else ⟨401, .message "Invalid credentials"⟩), users) := by
  constructor
  · by_cases hx : ∃ x ∈ db.users, Value.string x.username = body.username
        ∧ Value.string x.password = body.password ∧ Value.string x.role = body.role
    · have hf := (find_user_isSome db.users body hu hp hr).2 hx
      simp only [Server.login, hf, if_pos hx]
      simp
    · have hf : (db.users.find? (fun u => queryField body.username u.username
          && queryField body.password u.password
          && queryField body.role u.role)).isSome = false := by
        rw [Bool.eq_false_iff, Ne, find_user_isSome _ _ hu hp hr]
        exact hx
      simp only [Server.login, hf, if_neg hx]
      simp
  · by_cases hx : ∃ x ∈ users, Value.string x.username = body.username
        ∧ Value.string x.password = body.password ∧ Value.string x.role = body.role
    · have hf := (find_user_isSome users body hu hp hr).2 hx
      simp only [Api.login, hf, if_pos hx, if_neg h]
      simp
    · have hf : (users.find? (fun u => queryField body.username u.username
          && queryField body.password u.password
          && queryField body.role u.role)).isSome = false := by
        rw [Bool.eq_false_iff, Ne, find_user_isSome _ _ hu hp hr]
        exact hx
      simp only [Api.login, hf, if_neg hx, if_neg h]
      simp

theorem login_spec_witness :
    ((Value.string "alice").plain = true ∧ (Value.string "pw").plain = true ∧
      (Value.string "user").plain = true ∧ Value.string "user" ≠ Value.string "admin") ∧
    (Server.login sampleDb ⟨.string "alice", .string "pw", .string "user"⟩ =
        ((if ∃ x ∈ sampleDb.users, Value.string x.username = Value.string "alice"
            ∧ Value.string x.password = Value.string "pw"
            ∧ Value.string x.role = Value.string "user" then
          ⟨200, .message "Login ok"⟩
        else ⟨401, .message "Invalid credentials"⟩), sampleDb) ∧
      Api.login [userAlice] ⟨.string "alice", .string "pw", .string "user"⟩ =
        ((if ∃ x ∈ [userAlice], Value.string x.username = Value.string "alice"
            ∧ Value.string x.password = Value.string "pw"
            ∧ Value.string x.role = Value.string "user" then
          ⟨200, .message "Login ok"⟩
        else ⟨401, .message "Invalid credentials"⟩), [userAlice])) :=
  ⟨by decide, login_spec sampleDb [userAlice] ⟨.string "alice", .string "pw", .string "user"⟩
    (by decide) (by decide) (by decide) (by decide)⟩

/-- C9. For a request with role "admin", `POST /api/login` of `src/api/server.js`
answers 200 "Login ok" exactly when the username is "admin" and the password is
"Admin@123", and 401 otherwise; the store is neither read nor changed, so the
answer is the same for every store. -/
theorem api_login_admin (users users2 : List User) (username password : Value) :
    Api.login users ⟨username, password, .string "admin"⟩ =
        ((if username = .string "admin" ∧ password = .string "Admin@123" then
          ⟨200, .message "Login ok"⟩
        else ⟨401, .message "Invalid admin credentials"⟩), users) ∧
      (Api.login users ⟨username, password, .string "admin"⟩).1 =
        (Api.login users2 ⟨username, password, .string "admin"⟩).1 := by
  constructor <;> (simp only [Api.login, if_true]; split_ifs <;> rfl)

/-- C10. In `src/server.js` the login with role "admin" and the administrator
credential of `src/api/server.js` is refused with 401 on the empty database, where
`src/api/server.js` answers 200; every login with role "admin" is refused in every
database reached from the empty one, whatever the username and the password; and
no credential is accepted with role "admin" on every database. -/
theorem login_admin_refused (requests : List Server.Request) (username password : Value) :
    Server.login emptyDb ⟨.string "admin", .string "Admin@123", .string "admin"⟩ =
        (⟨401, .message "Invalid credentials"⟩, emptyDb) ∧
      (Api.login [] ⟨.string "admin", .string "Admin@123", .string "admin"⟩).1 =
        ⟨200, .message "Login ok"⟩ ∧
      Server.login (Server.run emptyDb requests) ⟨username, password, .string "admin"⟩ =
        (⟨401, .message "Invalid credentials"⟩, Server.run emptyDb requests) ∧
      ¬ ∃ u p : Value, ∀ db : Db,
        (Server.login db ⟨u, p, .string "admin"⟩).1.status = 200 := by
  refine ⟨by decide, by decide, ?_, ?_⟩
  · have hf := find_admin_isSome_false (Server.run emptyDb requests).users username password
      (run_usersOk requests emptyDb usersOk_nil).2
    simp only [Server.login, hf]
    simp
  · rintro ⟨u, p, h⟩
    have h200 := h emptyDb
    simp [Server.login, emptyDb] at h200

end Pro1
